import Mathlib

/-!
Verification of the yapdf bridge layer (Emacs dynamic module bridge).

Shallow embedding of:
- `Expected<T, E>` from `include/expected.hpp` (tagged union of success or
  error, with monadic combinators; wrong-variant access throws
  `BadExpectedAccess`);
- the pending non-local-exit state machine of the Emacs module environment
  and the `Env` wrappers from `include/bridge.hpp`;
- the wrapped-form and universal-form trampolines (`Env::trampoline` and the
  lambda in `Env::make<Value::Type::Function>`), including their exception
  catch chains;
- the string construction/extraction two-pass protocol
  (`Env::make<String>` / `Value::as<String>`);
- the `DefunRegistry` drain and `emacs_module_init` from `src/lib.cpp`.

C++ exception control flow is embedded as `Except`-valued functions; the
process-terminating path of an exception escaping a `noexcept` function is
embedded explicitly as a `terminated` outcome.
-/

namespace Yapdf

/-- The exception thrown on wrong-variant access of `Expected` (class
`BadExpectedAccess : std::logic_error` in expected.hpp). It carries the
`what()` message; the default-constructed message is "Bad expected access". -/
structure BadExpectedAccess where
  what : String
deriving Repr, DecidableEq

/-- Default message of `BadExpectedAccess()` in expected.hpp. -/
def badExpectedAccessDefault : BadExpectedAccess :=
  BadExpectedAccess.mk "Bad expected access"

/-- Source `Expected<T, E>` from expected.hpp: a `std::variant<T, E>` holding the
success payload at index 0 or the error payload at index 1. The two
constructors correspond to the two variant indices; the C++ invariant that
exactly one variant is populated is structural here. -/
inductive Expected (T E : Type) where
  | ok (t : T)
  | err (e : E)
deriving Repr, DecidableEq

namespace Expected

variable {T E U V F : Type}

/-- Source `hasValue()`: `ex_.index() == 0`. -/
def hasValue : Expected T E → Bool
  | .ok _ => true
  | .err _ => false

/-- Source `hasError()`: `ex_.index() == 1`. -/
def hasError : Expected T E → Bool
  | .ok _ => false
  | .err _ => true

/-- Source `value()`: throws `BadExpectedAccess()` if `hasError()`, otherwise
returns `std::get<0>(ex_)`. The C++ throw is embedded as `Except.error`. -/
def value : Expected T E → Except BadExpectedAccess T
  | .err _ => .error badExpectedAccessDefault
  | .ok t => .ok t

/-- Source `error()`: throws `BadExpectedAccess()` if `hasValue()`, otherwise
returns `std::get<1>(ex_)`. -/
def error : Expected T E → Except BadExpectedAccess E
  | .ok _ => .error badExpectedAccessDefault
  | .err e => .ok e

/-- Source `expect(s)`: throws `BadExpectedAccess(s)` if `hasError()`, otherwise
returns the success payload. -/
def expect (s : String) : Expected T E → Except BadExpectedAccess T
  | .err _ => .error (BadExpectedAccess.mk s)
  | .ok t => .ok t

/-- Source `map(f)`: if `hasValue()` return `f(value())`, else return
`Unexpected(error())` — the error is carried through untouched. -/
def map (f : T → U) : Expected T E → Expected U E
  | .ok t => .ok (f t)
  | .err e => .err e

/-- Source `mapErr(f)`: if `hasError()` return `Unexpected(f(error()))`, else
return `value()` — the success side is carried through untouched. -/
def mapErr (f : E → F) : Expected T E → Expected T F
  | .ok t => .ok t
  | .err e => .err (f e)

/-- Source `andThen(f)`: if `hasValue()` return `f(value())`, else return
`Unexpected(error())` without invoking `f`. -/
def andThen (f : T → Expected U E) : Expected T E → Expected U E
  | .ok t => f t
  | .err e => .err e

/-- Source `orElse(f)`: if `hasError()` return `f(error())`, else return
`value()` without invoking `f`. -/
def orElseC (f : E → Expected T F) : Expected T E → Expected T F
  | .ok t => .ok t
  | .err e => f e

/-- Source body of `operator==(const Expected&, const Expected&)` from
expected.hpp:

``return lhs.hasValue() == rhs.hasValue() ? lhs.value() == rhs.value()
       : lhs.hasError() == rhs.hasError() && lhs.error() == rhs.error();``

`value()`/`error()` may throw, and `&&` short-circuits, so evaluating the
body is `Except`-valued. -/
def beqOpBody [BEq T] [BEq E] (lhs rhs : Expected T E) : Except BadExpectedAccess Bool :=
  if lhs.hasValue == rhs.hasValue then do
    let a ← lhs.value
    let b ← rhs.value
    pure (a == b)
  else if lhs.hasError == rhs.hasError then do
    let a ← lhs.error
    let b ← rhs.error
    pure (a == b)
  else
    pure false

end Expected

/-- Outcome of a `noexcept` C++ function as its caller can observe it: a
normal result, or no observation at all because an exception escaping the
`noexcept` boundary invoked `std::terminate`. -/
inductive NoexceptOutcome (α : Type) where
  | result (a : α)
  | terminated
deriving Repr, DecidableEq

namespace Expected

variable {T E : Type}

/-- Source `operator==(const Expected&, const Expected&)` (expected.hpp
line 925) as observed by the caller. The operator is declared `noexcept`,
so a `BadExpectedAccess` thrown by `value()`/`error()` inside the body
does not propagate to the caller: it terminates the process. -/
def beqOp [BEq T] [BEq E] (lhs rhs : Expected T E) : NoexceptOutcome Bool :=
  match beqOpBody lhs rhs with
  | .ok b => .result b
  | .error _ => .terminated

end Expected

namespace Emacs

/-- Source `enum class FuncallExit` from bridge.hpp: possible Emacs function call
outcomes (`Return = 0`, `Signal = 1`, `Throw = 2`). -/
inductive FuncallExit where
  | Return
  | Signal
  | Throw
deriving Repr, DecidableEq

/-- Lisp values as observed through the module ABI, modelled abstractly:
`symbol` is the result of `intern`, `str` of `make_string`, `list` of a
`funcall` of the Lisp `list` function; `intv` covers `make_integer`. The
C++ side only ever passes these around as opaque `emacs_value` handles. -/
inductive EVal where
  | symbol (name : String)
  | str (s : String)
  | list (xs : List EVal)
  | intv (n : Int)

/-- A pending non-local exit recorded in the environment: either a raised
condition (`signal`, carrying symbol and data) or an escape (`thrown`,
carrying tag and value). "No error" is represented by absence (`Option`),
mirroring the invariant that `Error` is never constructed with
`kind = Return`. -/
inductive Pending where
  | signal (sym data : EVal)
  | thrown (tag val : EVal)

/-- The host-side module environment state visible through the
`non_local_exit_*` ABI functions: the pending-error slot. -/
structure EmacsEnv where
  pending : Option Pending

/-- Modelled from the spec: the host's `non_local_exit_check` ABI function
(Emacs's implementation is not part of this repository). It reports the
pending exit kind and never fails. -/
def nonLocalExitCheck (env : EmacsEnv) : FuncallExit :=
  match env.pending with
  | none => .Return
  | some (.signal _ _) => .Signal
  | some (.thrown _ _) => .Throw

/-- Modelled from the spec: the host's `non_local_exit_signal` ABI function
(Emacs's implementation is not part of this repository). Per the documented
host contract quoted in bridge.hpp, "if there was already a nonlocal exit
pending ... the function does nothing; i.e. it doesn't overwrite the error
symbol and data". -/
def nonLocalExitSignal (env : EmacsEnv) (sym data : EVal) : EmacsEnv :=
  match env.pending with
  | some _ => env
  | none => { env with pending := some (.signal sym data) }

/-- Modelled from the spec: the host's `non_local_exit_throw` ABI function
(Emacs's implementation is not part of this repository). Same
first-error-wins contract as `non_local_exit_signal`. -/
def nonLocalExitThrow (env : EmacsEnv) (tag val : EVal) : EmacsEnv :=
  match env.pending with
  | some _ => env
  | none => { env with pending := some (.thrown tag val) }

/-- Modelled from the spec: the host's `non_local_exit_clear` ABI function
(Emacs's implementation is not part of this repository). It resets the
pending-error slot. -/
def nonLocalExitClear (env : EmacsEnv) : EmacsEnv :=
  { env with pending := none }

/-- Source `class Error` from bridge.hpp: tagged record of a funcall exit status
plus two values, read as `(symbol, data)` for a signal or `(tag, value)`
for a throw (`tag()` returns `sym_` and `value()` returns `data_`). -/
structure Error where
  status : FuncallExit
  sym : EVal
  data : EVal

namespace Env

/-- Source `Env::checkError`: `non_local_exit_check`. -/
def checkError (env : EmacsEnv) : FuncallExit :=
  nonLocalExitCheck env

/-- Source `Env::clearError`: `non_local_exit_clear`. -/
def clearError (env : EmacsEnv) : EmacsEnv :=
  nonLocalExitClear env

/-- Source `Env::throwError(err)`: `non_local_exit_throw(err.tag(), err.value())`. -/
def throwErr (env : EmacsEnv) (err : Error) : EmacsEnv :=
  nonLocalExitThrow env err.sym err.data

/-- Source `Env::signalError(err)`: `non_local_exit_signal(err.symbol(), err.data())`. -/
def signalError (env : EmacsEnv) (err : Error) : EmacsEnv :=
  nonLocalExitSignal env err.sym err.data

/-- Source `Env::signal(env, sym, what)` from bridge.hpp: builds
`what_obj = make_string(what)`, `data = (list what_obj)`, then calls
`non_local_exit_signal(intern(sym), data)`. -/
def signal (env : EmacsEnv) (sym what : String) : EmacsEnv :=
  nonLocalExitSignal env (EVal.symbol sym) (EVal.list [EVal.str what])

end Env

/-- Source `Error::report(env)` from the bridge implementation: dispatches on the
status, calling `signalError` for `Signal` and `throwError` for `Throw`;
the `Return` case is `YAPDF_UNREACHABLE` in the source (modelled as the
identity, it is never exercised by the trampolines). -/
def Error.report (env : EmacsEnv) (err : Error) : EmacsEnv :=
  match err.status with
  | .Signal => Env.signalError env err
  | .Throw => Env.throwErr env err
  | .Return => env

end Emacs

namespace Emacs

/-- The C++ exceptions distinguishable by the trampolines' catch chains.
`overflowError`, `underflowError` and `rangeError` derive from
`std::runtime_error`; `outOfRange` and `badExpectedAccess` derive from
`std::logic_error`; all of those and `otherStd` derive from
`std::exception`; `nonStd` is anything caught only by `catch (...)`. -/
inductive CppException where
  | overflowError (what : String)
  | underflowError (what : String)
  | rangeError (what : String)
  | outOfRange (what : String)
  | badAlloc (what : String)
  | badExpectedAccess (what : String)
  | otherStd (what : String)
  | nonStd
deriving Repr, DecidableEq

/-- What running a native function at the ABI boundary can do: return a
value normally, or let a C++ exception escape. -/
inductive NativeOutcome (α : Type) where
  | ret (a : α)
  | exn (ex : CppException)
deriving Repr, DecidableEq

/-- The catch chain of the wrapped-form trampoline (`Env::trampoline`,
bridge.hpp lines 1354-1369), in source order with C++ base-class matching:
`overflow_error`, `underflow_error`, `range_error`, `out_of_range`,
`bad_alloc`, then `std::exception` (which also catches `BadExpectedAccess`,
a `std::logic_error`), then `catch (...)`. Each clause calls
`signal(env, name, what)`. -/
def trampolineCatch (env : EmacsEnv) (ex : CppException) : EmacsEnv :=
  match ex with
  | .overflowError w => Env.signal env "overflow-error" w
  | .underflowError w => Env.signal env "underflow-error" w
  | .rangeError w => Env.signal env "range-error" w
  | .outOfRange w => Env.signal env "out-of-range" w
  | .badAlloc w => Env.signal env "memory-full" w
  | .badExpectedAccess w => Env.signal env "error" w
  | .otherStd w => Env.signal env "error" w
  | .nonStd => Env.signal env "error" "unknown error"

/-- The wrapped-form trampoline `Env::trampoline` (bridge.hpp lines
1338-1371). The behaviour of the wrapped native function `f` on the given
arguments is summarised by `outcome`: it either returned an
`Expected<Value, Error>` or threw. On a success result the trampoline
returns the handle; on an error result it calls `result.error().report(e)`
and returns `nullptr`; on an exception the catch chain signals and
`nullptr` is returned. `none` is the `nullptr` sentinel handle. -/
def trampolineWrapped (env : EmacsEnv)
    (outcome : NativeOutcome (Expected EVal Error)) : Option EVal × EmacsEnv :=
  match outcome with
  | .ret (.ok v) => (some v, env)
  | .ret (.err er) => (none, Error.report env er)
  | .exn ex => (none, trampolineCatch env ex)

/-- The catch chain of the universal-form trampoline (the lambda in
`Env::make<Value::Type::Function>`, bridge.hpp lines 1421-1437). It differs
from the wrapped-form chain in one clause: `catch (const BadExpectedAccess&)`
appears before `catch (const std::exception&)` and signals
`"convert-error"`. -/
def universalCatch (env : EmacsEnv) (ex : CppException) : EmacsEnv :=
  match ex with
  | .overflowError w => Env.signal env "overflow-error" w
  | .underflowError w => Env.signal env "underflow-error" w
  | .rangeError w => Env.signal env "range-error" w
  | .outOfRange w => Env.signal env "out-of-range" w
  | .badAlloc w => Env.signal env "memory-full" w
  | .badExpectedAccess w => Env.signal env "convert-error" w
  | .otherStd w => Env.signal env "error" w
  | .nonStd => Env.signal env "error" "unknown error"

/-- The universal-form trampoline lambda (bridge.hpp lines 1404-1438).
`arity` is the compile-time `sizeof...(Args)`; the lambda first executes
`assert(arity == nargs)` (modelled as the `none` result when the assertion
fires). The try block — marshalling each argument via typed extraction
(which throws `BadExpectedAccess` on failure), invoking `f`, and converting
the result back with `to_lisp` — is summarised by `body`: it either
produced an `Expected<Value, Error>` conversion result or threw. A `nil`
return for void functions is an `.ok` body value. On an error result the
lambda calls `ex.error().report(e)` and returns `nullptr`. -/
def trampolineUniversal (arity : Nat) (env : EmacsEnv) (nargs : Nat)
    (body : NativeOutcome (Expected EVal Error)) :
    Option (Option EVal × EmacsEnv) :=
  if arity = nargs then
    some (match body with
      | .ret (.ok v) => (some v, env)
      | .ret (.err er) => (none, Error.report env er)
      | .exn ex => (none, universalCatch env ex))
  else
    none

/-- The condition names of the fixed six-entry taxonomy claimed by the spec
(overflow, underflow, range, out-of-range, allocation-failure, generic), as
the condition symbols actually used by the trampolines. Stated from the
spec's words, to be compared with the trampoline catch chains. -/
def specTaxonomy : List String :=
  ["overflow-error", "underflow-error", "range-error", "out-of-range",
   "memory-full", "error"]

/-- The condition name the wrapped-form catch chain signals for each
exception, stated as a standalone mapping to compare against
`trampolineWrapped`. -/
def wrappedConditionName : CppException → String
  | .overflowError _ => "overflow-error"
  | .underflowError _ => "underflow-error"
  | .rangeError _ => "range-error"
  | .outOfRange _ => "out-of-range"
  | .badAlloc _ => "memory-full"
  | .badExpectedAccess _ => "error"
  | .otherStd _ => "error"
  | .nonStd => "error"

/-- The condition name the universal-form catch chain signals for each
exception: as `wrappedConditionName` except that `BadExpectedAccess` maps
to `"convert-error"`. -/
def universalConditionName : CppException → String
  | .badExpectedAccess _ => "convert-error"
  | ex => wrappedConditionName ex

/-- The best-effort message each catch clause passes to `signal`: the
exception's `what()` string, or `"unknown error"` for `catch (...)`. -/
def exceptionMessage : CppException → String
  | .overflowError w => w
  | .underflowError w => w
  | .rangeError w => w
  | .outOfRange w => w
  | .badAlloc w => w
  | .badExpectedAccess w => w
  | .otherStd w => w
  | .nonStd => "unknown error"

/-! ### String construction and extraction (claim C5)

`Env::make<Value::Type::String>(s, len)` calls the host's `make_string`
with an explicit length; `Value::as<Value::Type::String>` implements the
two-pass length-then-copy protocol of bridge.hpp lines 1535-1550. Byte
strings are `List Nat` so embedded NUL bytes (`0`) and empty strings are
representable. -/

/-- Modelled from the spec: the host's `make_string(s, len)` (Emacs's
implementation is not part of this repository). Per the spec's wire
contract the resulting Lisp string object holds exactly the `len` bytes of
`s`, embedded NUL bytes included. -/
def makeStringObj (s : List Nat) : List Nat := s

/-- Modelled from the spec: the length pass of the host's
`copy_string_contents(value, nullptr, &len)` (Emacs's implementation is not
part of this repository). It stores the required buffer size: the string
length plus one for the NUL terminator the copy appends. -/
def copyStringContentsLen (obj : List Nat) : Nat := obj.length + 1

/-- Modelled from the spec: the copy pass of the host's
`copy_string_contents(value, buf, &len)` (Emacs's implementation is not
part of this repository). It fills the buffer with the string contents
followed by exactly one NUL terminator. -/
def copyStringContentsBuf (obj : List Nat) : List Nat := obj ++ [0]

/-- Source `Value::as<Value::Type::String>` (bridge.hpp lines 1535-1550): query
the required length, allocate `std::string s(len, '\0')`, copy the
contents into it, then — if `s` is nonempty — `assert(s.back() == '\0')`
and `s.pop_back()` to remove the one trailing NUL the copy appended. -/
def valueAsString (obj : List Nat) : List Nat :=
  let s := copyStringContentsBuf obj
  if s ≠ [] then s.dropLast else s

/-! ### Registry drain and module initialization (claims C6, C7)

`DefunRegistry::def` iterates the registered descriptors and calls each
descriptor's `def`, which binds the function via
`make<Function>(...).expect(name)` followed by `defalias(...).expect(name)`.
Both `def` overrides and `emacs_module_init` are `noexcept`, so a thrown
`BadExpectedAccess` from `expect` terminates the process
(`std::terminate`) rather than unwinding. -/

/-- The host-visible outcomes of one descriptor's `def(Env&)`: whether the
`make<Function>` construction and the `defalias` binding succeed. The
actual handles do not matter for the drain control flow, only success or
failure of each `Expected` result. -/
structure DefunBindOutcome where
  makeOk : Bool
  bindOk : Bool
deriving Repr, DecidableEq

/-- Outcome of a `noexcept` operation that may throw internally: normal
completion, or process termination via `std::terminate` when a
`BadExpectedAccess` escapes the `noexcept` boundary. -/
inductive DefOutcome where
  | ok
  | terminated
deriving Repr, DecidableEq

/-- Source `DefunRawFunction::def` / `DefunWrappedFunction::def` /
`DefunUniversalFunction::def`: `make<Function>(...).expect(name_)` then
`defalias(name_, fn).expect(name_)`, inside a `noexcept` virtual. A failed
`Expected` makes `expect` throw, and the throw inside `noexcept` is
`std::terminate`. -/
def defunDef (d : DefunBindOutcome) : DefOutcome :=
  if d.makeOk then
    if d.bindOk then .ok else .terminated
  else
    .terminated

/-- Source `DefunRegistry::def(Env&)`: `for (auto& p : defuns_) p->def(e);` —
drain every registered descriptor in order; the first termination aborts
the whole process. -/
def registryDef (ds : List DefunBindOutcome) : DefOutcome :=
  match ds with
  | [] => .ok
  | d :: rest =>
    match defunDef d with
    | .ok => registryDef rest
    | .terminated => .terminated

/-- What `emacs_module_init` can do as observed by the host: return an
integer status, or never return because the process terminated. -/
inductive InitResult where
  | ret (code : Int)
  | terminated
deriving Repr, DecidableEq

/-- The inputs `emacs_module_init` branches on: the runtime structure's
`size` field against `sizeof(*runtime)`, the environment structure's `size`
field against `sizeof(*env)`, the registered descriptors' bind outcomes,
and whether the final `provide("yapdf-module")` succeeds. -/
structure ModuleInitInput where
  runtimeSize : Nat
  runtimeStructSize : Nat
  envSize : Nat
  envStructSize : Nat
  defuns : List DefunBindOutcome
  provideOk : Bool
deriving Repr, DecidableEq

/-- Source `emacs_module_init` from src/lib.cpp: return 1 if
`runtime->size < sizeof(*runtime)`; else return 2 if
`env->size < sizeof(*env)`; else drain the registry
(`DefunRegistry::getInstance().def(e)`), call
`provide("yapdf-module").expect(...)` (a failure there also throws inside
the `noexcept` entry point), and return 0. -/
def emacsModuleInit (inp : ModuleInitInput) : InitResult :=
  if inp.runtimeSize < inp.runtimeStructSize then
    .ret 1
  else if inp.envSize < inp.envStructSize then
    .ret 2
  else
    match registryDef inp.defuns with
    | .terminated => .terminated
    | .ok => if inp.provideOk then .ret 0 else .terminated

/-! ### Universal dispatch arity (claim C9) -/

/-- The native C++ parameter types accepted by the universal dispatch
strategy's marshalling (`from_lisp` in bridge.hpp). Only the count matters
for arity. -/
inductive CType where
  | intT
  | floatT
  | stringT
  | boolT
  | ptrT
  | valueT
  | timeT
deriving Repr, DecidableEq

/-- The registration arities of `Env::make<Value::Type::Function>` for a
universal function `R (*)(Env&, Args...)` (bridge.hpp lines 1398-1403):
`constexpr std::size_t arity = sizeof...(Args);` and the inner `make` is
called with `min_arity = max_arity = arity`. -/
structure FunctionArity where
  minArity : Nat
  maxArity : Nat
deriving Repr, DecidableEq

/-- The arity pair the universal-form `make<Function>` registers for a
parameter list `args` (the `Args...` pack): both bounds are
`sizeof...(Args)`. -/
def universalMakeArity (args : List CType) : FunctionArity :=
  { minArity := args.length, maxArity := args.length }

end Emacs

end Yapdf

/-! ## Claims about `Expected` -/

namespace Yapdf

/-- C2: calling `value()` on an `Expected` in the error state, or `error()`
on one in the success state, fails with the distinguished `BadExpectedAccess`
error; on the matching variant each returns the contained payload. -/
theorem expected_wrong_variant_access (T E : Type) (x : Expected T E) :
    (x.hasError = true → x.value = Except.error badExpectedAccessDefault) ∧
    (x.hasValue = true → x.error = Except.error badExpectedAccessDefault) ∧
    (∀ t : T, x = .ok t → x.value = Except.ok t) ∧
    (∀ e : E, x = .err e → x.error = Except.ok e) := by
  cases x <;> simp [Expected.hasError, Expected.hasValue, Expected.value, Expected.error]

/-- Witness for C2 at concrete inputs. -/
theorem expected_wrong_variant_access_witness :
    (Expected.err (T := Nat) (E := Nat) 3).value = Except.error badExpectedAccessDefault ∧
    (Expected.ok (T := Nat) (E := Nat) 2).error = Except.error badExpectedAccessDefault :=
  ⟨(expected_wrong_variant_access Nat Nat (.err 3)).1 rfl,
   (expected_wrong_variant_access Nat Nat (.ok 2)).2.1 rfl⟩

/-- C3: `andThen` short-circuits. On the error state it returns the original
error untouched, for every `f`; on the success state it returns `f` applied
to the contained value; and once an error is produced, a whole chain of
`andThen` calls returns that same error. -/
theorem andThen_short_circuits (T E : Type) (e : E) (t : T)
    (f : T → Expected T E) (fs : List (T → Expected T E)) :
    ((Expected.err e : Expected T E).andThen f = Expected.err e) ∧
    ((Expected.ok t : Expected T E).andThen f = f t) ∧
    (fs.foldl (fun acc g => acc.andThen g) (Expected.err e : Expected T E) =
      Expected.err e) := by
  refine ⟨rfl, rfl, ?_⟩
  induction fs with
  | nil => rfl
  | cons g gs ih => simpa [Expected.andThen] using ih

/-- C4: `map` composes on the success branch — `r.map(f).map(g)` equals
`r.map(g ∘ f)`; on the error branch neither function is invoked and the
error is carried through untouched; symmetrically `mapErr` is a no-op on
the success side. -/
theorem map_functor_composition (T U V E F : Type) (x : Expected T E) (e : E) (t : T)
    (f : T → U) (g : U → V) (h : E → F) :
    ((x.map f).map g = x.map (fun a => g (f a))) ∧
    ((Expected.err e : Expected T E).map f = Expected.err e) ∧
    (((Expected.err e : Expected T E).map f).map g = Expected.err e) ∧
    ((Expected.ok t : Expected T E).mapErr h = Expected.ok t) := by
  refine ⟨?_, rfl, rfl, rfl⟩
  cases x <;> rfl

/-- C10 counterexample: on two error-state operands the body of
`operator==` takes the `lhs.value() == rhs.value()` branch
(`hasValue() == hasValue()` is `true` for `false == false`) and `value()`
raises `BadExpectedAccess` — but the operator is declared `noexcept`, so
the caller never observes a thrown `BadExpectedAccess`: the exception
escaping the `noexcept` boundary terminates the process. The claimed
catchable throw is therefore false at this input. -/
theorem beq_noexcept_counterexample :
    Expected.beqOpBody (Expected.err (T := Nat) (E := Nat) 1) (Expected.err 2) =
      Except.error badExpectedAccessDefault ∧
    Expected.beqOp (Expected.err (T := Nat) (E := Nat) 1) (Expected.err 2) =
      NoexceptOutcome.terminated :=
  ⟨rfl, rfl⟩

/-- C10 (amended): `operator==` on two error-state `Expected`s attempts to
access the success values instead of comparing the contained errors, and
the resulting `BadExpectedAccess` escapes the `noexcept` comparison,
terminating the process (`std::terminate`) rather than surfacing as a
catchable exception or a return value; on mixed states it returns `false`
without throwing; on two success states it compares the contained
values. -/
theorem beq_both_errors_terminates (T E : Type) [BEq T] [BEq E]
    (t1 t2 : T) (e1 e2 : E) :
    (Expected.beqOpBody (Expected.err e1 : Expected T E) (Expected.err e2) =
      Except.error badExpectedAccessDefault) ∧
    (Expected.beqOp (Expected.err e1 : Expected T E) (Expected.err e2) =
      NoexceptOutcome.terminated) ∧
    (Expected.beqOp (Expected.ok t1 : Expected T E) (Expected.err e2) =
      NoexceptOutcome.result false) ∧
    (Expected.beqOp (Expected.err e1 : Expected T E) (Expected.ok t2) =
      NoexceptOutcome.result false) ∧
    (Expected.beqOp (Expected.ok t1 : Expected T E) (Expected.ok t2) =
      NoexceptOutcome.result (t1 == t2)) := by
  refine ⟨?_, ?_, ?_, ?_, ?_⟩ <;>
    rfl

end Yapdf

/-! ## Claims about the error / non-local-exit state machine -/

namespace Yapdf

/-- C8: once an error is pending (state Signal or Throw), a further
`signalError` or `throwError` without an intervening `clearError` is a
no-op — the environment (and hence the pending error's kind, symbol/tag and
data/value) never changes, the first error wins — and an explicit
`clearError` returns the state to Return. -/
theorem pending_first_error_wins (env : Emacs.EmacsEnv) (e1 e2 : Emacs.Error)
    (h : Emacs.Env.checkError env ≠ Emacs.FuncallExit.Return) :
    Emacs.Env.signalError env e1 = env ∧
    Emacs.Env.throwErr env e2 = env ∧
    Emacs.Env.checkError (Emacs.Env.signalError env e1) = Emacs.Env.checkError env ∧
    Emacs.Env.checkError (Emacs.Env.throwErr env e2) = Emacs.Env.checkError env ∧
    Emacs.Env.checkError (Emacs.Env.clearError env) = Emacs.FuncallExit.Return := by
  obtain ⟨p⟩ := env
  cases p with
  | none => exact absurd rfl h
  | some q => exact ⟨rfl, rfl, rfl, rfl, rfl⟩

/-- Witness for C8: a concrete environment with a pending signal. -/
theorem pending_first_error_wins_witness :
    Emacs.Env.signalError ⟨some (.signal (.symbol "err1") (.list []))⟩
        ⟨.Signal, .symbol "err2", .list []⟩ =
      ⟨some (.signal (.symbol "err1") (.list []))⟩ ∧
    Emacs.Env.checkError
        (Emacs.Env.clearError ⟨some (.signal (.symbol "err1") (.list []))⟩) =
      Emacs.FuncallExit.Return :=
  ⟨(pending_first_error_wins ⟨some (.signal (.symbol "err1") (.list []))⟩
      ⟨.Signal, .symbol "err2", .list []⟩ ⟨.Throw, .symbol "tagx", .intv 0⟩
      (by decide)).1,
   (pending_first_error_wins ⟨some (.signal (.symbol "err1") (.list []))⟩
      ⟨.Signal, .symbol "err2", .list []⟩ ⟨.Throw, .symbol "tagx", .intv 0⟩
      (by decide)).2.2.2.2⟩

/-! ## Claims about the trampolines -/

/-- C1 counterexample: the universal-form trampoline maps the
`BadExpectedAccess` exception to the condition name "convert-error", which
is not one of the six condition names of the claimed fixed taxonomy and is
not the generic "error" either, so the claimed mapping is not exact for the
universal form. -/
theorem trampoline_taxonomy_counterexample :
    Emacs.trampolineUniversal 1 ⟨none⟩ 1
        (.exn (.badExpectedAccess "wrong-type")) =
      some (none, ⟨some (.signal (.symbol "convert-error")
        (.list [.str "wrong-type"]))⟩) ∧
    "convert-error" ∉ Emacs.specTaxonomy := by
  refine ⟨?_, by decide⟩
  simp [Emacs.trampolineUniversal, Emacs.universalCatch, Emacs.Env.signal,
    Emacs.nonLocalExitSignal]

/-- C1 (amended): every native C++ exception escaping a wrapped-form or
universal-form registered function is caught at the ABI boundary,
translated into a pending Signal on a clean environment and a null sentinel
handle is returned; the condition name follows the fixed taxonomy
(overflow, underflow, range, out-of-range, allocation-failure, generic),
unknown exception types map to a generic "error" condition with a
best-effort message, EXCEPT that the universal form additionally maps the
`BadExpectedAccess` conversion exception to a distinct "convert-error"
condition; with that addition the mapping is exact. -/
theorem trampoline_exception_translation (ex : Emacs.CppException)
    (env : Emacs.EmacsEnv) (arity nargs : Nat)
    (h : Emacs.Env.checkError env = Emacs.FuncallExit.Return)
    (ha : arity = nargs) :
    Emacs.trampolineWrapped env (.exn ex) =
      (none, ⟨some (.signal (.symbol (Emacs.wrappedConditionName ex))
        (.list [.str (Emacs.exceptionMessage ex)]))⟩) ∧
    Emacs.trampolineUniversal arity env nargs (.exn ex) =
      some (none, ⟨some (.signal (.symbol (Emacs.universalConditionName ex))
        (.list [.str (Emacs.exceptionMessage ex)]))⟩) ∧
    Emacs.wrappedConditionName ex ∈ Emacs.specTaxonomy ∧
    (Emacs.universalConditionName ex ∈ Emacs.specTaxonomy ∨
      Emacs.universalConditionName ex = "convert-error") := by
  subst ha
  obtain ⟨p⟩ := env
  have hp : p = none := by
    cases p with
    | none => rfl
    | some q =>
      cases q <;> simp [Emacs.Env.checkError, Emacs.nonLocalExitCheck] at h
  subst hp
  refine ⟨?_, ?_, ?_, ?_⟩
  · cases ex <;> rfl
  · cases ex <;>
      simp [Emacs.trampolineUniversal, Emacs.universalCatch, Emacs.Env.signal,
        Emacs.nonLocalExitSignal, Emacs.universalConditionName,
        Emacs.wrappedConditionName, Emacs.exceptionMessage]
  · cases ex <;> simp [Emacs.wrappedConditionName, Emacs.specTaxonomy]
  · cases ex <;>
      simp [Emacs.universalConditionName, Emacs.wrappedConditionName,
        Emacs.specTaxonomy]

/-- Witness for C1 (amended), at the `BadExpectedAccess` exception on a
clean environment with matching arity. -/
theorem trampoline_exception_translation_witness :
    Emacs.trampolineWrapped ⟨none⟩ (.exn (.badExpectedAccess "msg")) =
      (none, ⟨some (.signal (.symbol "error") (.list [.str "msg"]))⟩) ∧
    Emacs.trampolineUniversal 1 ⟨none⟩ 1 (.exn (.badExpectedAccess "msg")) =
      some (none, ⟨some (.signal (.symbol "convert-error")
        (.list [.str "msg"]))⟩) :=
  ⟨(trampoline_exception_translation (.badExpectedAccess "msg") ⟨none⟩ 1 1
      rfl rfl).1,
   (trampoline_exception_translation (.badExpectedAccess "msg") ⟨none⟩ 1 1
      rfl rfl).2.1⟩

/-! ## Claim about string round-tripping -/

/-- C5: for every byte string `s`, including strings with embedded NUL
bytes and the empty string, construction with explicit length followed by
extraction yields exactly `s`; the length pass reports the buffer size
(string length plus one terminator), the copy pass appends exactly one
trailing NUL and the extraction removes exactly that one byte. -/
theorem string_roundtrip (s : List Nat) :
    Emacs.valueAsString (Emacs.makeStringObj s) = s ∧
    Emacs.copyStringContentsLen (Emacs.makeStringObj s) = s.length + 1 ∧
    Emacs.copyStringContentsBuf (Emacs.makeStringObj s) = s ++ [0] := by
  refine ⟨?_, rfl, rfl⟩
  simp [Emacs.valueAsString, Emacs.copyStringContentsBuf, Emacs.makeStringObj]

/-! ## Claims about module initialization and the registry drain -/

/-- C7: `emacs_module_init` returns 1 when the runtime structure's size
field is smaller than the expected runtime size (regardless of the
environment size, showing the check order), returns 2 when the runtime size
is adequate but the environment structure's size field is smaller than the
expected environment size, and returns 0 when both checks pass and every
registered function binds and `provide` succeeds. -/
theorem module_init_status_codes (inp : Emacs.ModuleInitInput) :
    (inp.runtimeSize < inp.runtimeStructSize →
      Emacs.emacsModuleInit inp = Emacs.InitResult.ret 1) ∧
    (¬ inp.runtimeSize < inp.runtimeStructSize →
      inp.envSize < inp.envStructSize →
      Emacs.emacsModuleInit inp = Emacs.InitResult.ret 2) ∧
    (¬ inp.runtimeSize < inp.runtimeStructSize →
      ¬ inp.envSize < inp.envStructSize →
      Emacs.registryDef inp.defuns = Emacs.DefOutcome.ok →
      inp.provideOk = true →
      Emacs.emacsModuleInit inp = Emacs.InitResult.ret 0) := by
  refine ⟨fun h1 => ?_, fun h1 h2 => ?_, fun h1 h2 h3 h4 => ?_⟩ <;>
    simp [Emacs.emacsModuleInit, h1]
  · simp [h2]
  · simp [h2, h3, h4]

/-- Witness for C7 at concrete inputs exercising all three status codes. -/
theorem module_init_status_codes_witness :
    Emacs.emacsModuleInit ⟨10, 20, 0, 0, [], true⟩ = Emacs.InitResult.ret 1 ∧
    Emacs.emacsModuleInit ⟨20, 20, 5, 10, [], true⟩ = Emacs.InitResult.ret 2 ∧
    Emacs.emacsModuleInit ⟨20, 20, 10, 10, [⟨true, true⟩], true⟩ =
      Emacs.InitResult.ret 0 :=
  ⟨(module_init_status_codes ⟨10, 20, 0, 0, [], true⟩).1 (by decide),
   (module_init_status_codes ⟨20, 20, 5, 10, [], true⟩).2.1 (by decide) (by decide),
   (module_init_status_codes ⟨20, 20, 10, 10, [⟨true, true⟩], true⟩).2.2
     (by decide) (by decide) (by decide) rfl⟩

/-- C6 counterexample: with adequate size fields and one registered
descriptor whose host-side function construction fails, the module
initialization does not return any status code at all — the failed
`expect` throws inside a `noexcept` function, terminating the process —
so in particular it does not return the nonzero load-failure status the
claim states. -/
theorem registry_failure_counterexample :
    Emacs.emacsModuleInit ⟨20, 20, 10, 10, [⟨false, true⟩], true⟩ =
      Emacs.InitResult.terminated ∧
    Emacs.emacsModuleInit ⟨20, 20, 10, 10, [⟨false, true⟩], true⟩ ≠
      Emacs.InitResult.ret 1 ∧
    Emacs.emacsModuleInit ⟨20, 20, 10, 10, [⟨false, true⟩], true⟩ ≠
      Emacs.InitResult.ret 2 := by
  decide

/-- Helper for C6: the registry drain terminates the process as soon as any
registered descriptor's `def` terminates. -/
theorem registryDef_terminated_of_mem (ds : List Emacs.DefunBindOutcome)
    (d : Emacs.DefunBindOutcome) (hd : d ∈ ds)
    (hfail : Emacs.defunDef d = Emacs.DefOutcome.terminated) :
    Emacs.registryDef ds = Emacs.DefOutcome.terminated := by
  induction ds with
  | nil => cases hd
  | cons head rest ih =>
    rcases List.mem_cons.mp hd with h | h
    · subst h
      simp [Emacs.registryDef, hfail]
    · cases hh : Emacs.defunDef head <;> simp [Emacs.registryDef, hh, ih h]

/-- C6 (amended): during the single registry drain at module
initialization, if constructing a host-side function object or binding it
to its exported name fails for any registered descriptor, that failure is
fatal to module load and is not swallowed — but it surfaces as process
termination (the thrown `BadExpectedAccess` escapes a `noexcept`
function), not as a nonzero return value of the module init. -/
theorem registry_failure_fatal (inp : Emacs.ModuleInitInput)
    (h1 : ¬ inp.runtimeSize < inp.runtimeStructSize)
    (h2 : ¬ inp.envSize < inp.envStructSize)
    (d : Emacs.DefunBindOutcome) (hd : d ∈ inp.defuns)
    (hfail : d.makeOk = false ∨ d.bindOk = false) :
    Emacs.emacsModuleInit inp = Emacs.InitResult.terminated := by
  have hterm : Emacs.defunDef d = Emacs.DefOutcome.terminated := by
    obtain ⟨mk, bd⟩ := d
    rcases hfail with h | h <;> simp_all [Emacs.defunDef]
  have hreg := registryDef_terminated_of_mem inp.defuns d hd hterm
  simp [Emacs.emacsModuleInit, h1, h2, hreg]

/-- Witness for C6 (amended), at a concrete registry with one descriptor
whose `defalias` binding fails. -/
theorem registry_failure_fatal_witness :
    Emacs.emacsModuleInit ⟨20, 20, 10, 10, [⟨true, false⟩], true⟩ =
      Emacs.InitResult.terminated :=
  registry_failure_fatal ⟨20, 20, 10, 10, [⟨true, false⟩], true⟩
    (by decide) (by decide) ⟨true, false⟩ (by decide) (Or.inr rfl)

/-! ## Claim about universal dispatch arity -/

/-- C9: for the universal dispatch strategy, the registered min and max
arity both equal the number of native parameters, derived from the
parameter list; and the generated trampoline's assertion that `nargs`
equals this statically known arity never fires when the host enforces the
arity precondition. -/
theorem universal_arity_exact (args : List Emacs.CType) (nargs : Nat)
    (env : Emacs.EmacsEnv)
    (body : Emacs.NativeOutcome (Expected Emacs.EVal Emacs.Error))
    (h : nargs = args.length) :
    (Emacs.universalMakeArity args).minArity = args.length ∧
    (Emacs.universalMakeArity args).maxArity = args.length ∧
    Emacs.trampolineUniversal args.length env nargs body ≠ none := by
  subst h
  refine ⟨rfl, rfl, ?_⟩
  simp [Emacs.trampolineUniversal]

/-- Witness for C9 with a one-parameter universal function called with one
argument. -/
theorem universal_arity_exact_witness :
    (Emacs.universalMakeArity [Emacs.CType.intT]).minArity = 1 ∧
    (Emacs.universalMakeArity [Emacs.CType.intT]).maxArity = 1 ∧
    Emacs.trampolineUniversal 1 ⟨none⟩ 1 (.ret (.ok (.intv 0))) ≠ none :=
  ⟨(universal_arity_exact [Emacs.CType.intT] 1 ⟨none⟩ (.ret (.ok (.intv 0))) rfl).1,
   (universal_arity_exact [Emacs.CType.intT] 1 ⟨none⟩ (.ret (.ok (.intv 0))) rfl).2.1,
   (universal_arity_exact [Emacs.CType.intT] 1 ⟨none⟩ (.ret (.ok (.intv 0))) rfl).2.2⟩

end Yapdf
